import Mathlib

/-!
Verification of pg_keeper (src/pg_keeper.c), a clustering / failover
supervisor extension for PostgreSQL.

The definitions below are a shallow embedding of the C source.  Pure
control flow is translated function-by-function; the libpq / SPI world
that the code interacts with is abstracted as explicit oracle records
(`PGWorld`, a `String → PGWorld` network oracle, a registry represented
as a `List Node`).  Functions of this repository whose bodies live in
files not present under src/ (util.c, standby.c: `getAllRepNodes`,
`addNewNode`, `deleteNodeByName`, `deleteNodeBySeqno`,
`updateManageTableAccordingToSSNames`, `KeeperMainStandby`) are
modelled from the specification and say so in their doc comments.
-/

/-- Keeper status values, from the `KeeperStatus` enumeration used by
`pg_keeper.c` (`getStatusPsString` names all six members). -/
inductive KeeperStatus where
  | KEEPER_MASTER_READY
  | KEEPER_MASTER_CONNECTED
  | KEEPER_MASTER_ASYNC
  | KEEPER_STANDBY_READY
  | KEEPER_STANDBY_CONNECTED
  | KEEPER_STANDBY_ALONE
deriving DecidableEq, Repr

/-- Signals that pg_keeper delivers or handles (SIGUSR1 for cache
invalidation, SIGTERM for shutdown, SIGHUP for config reload). -/
inductive Signal where
  | SIGUSR1
  | SIGTERM
  | SIGHUP
deriving DecidableEq, Repr

/-- Result statuses of a libpq query, the ones `execSQL` distinguishes
plus representatives of the non-success ones. -/
inductive PGresStatus where
  | PGRES_TUPLES_OK
  | PGRES_COMMAND_OK
  | PGRES_EMPTY_QUERY
  | PGRES_BAD_RESPONSE
  | PGRES_NONFATAL_ERROR
  | PGRES_FATAL_ERROR
deriving DecidableEq, BEq, Repr

/-- Abstraction of the libpq world seen by one `execSQL` call:
whether `PQconnectdb` yields a usable connection (the code checks it
against NULL), the `PQresultStatus` of the one executed query, and the
boolean scalar `str_to_bool(PQgetvalue(res, 0, 0))` would produce. -/
structure PGWorld where
  connectOk : Bool
  resStatus : PGresStatus
  value : Bool
deriving DecidableEq, Repr

/-- Outcome of one `execSQL` call: its return value, the value written
through the `result` out-parameter (none when the caller passed NULL or
the call failed before the write), and how many times `PQfinish` ran. -/
structure ExecOutcome where
  ret : Bool
  stored : Option Bool
  finishCount : Nat
deriving DecidableEq, Repr

/-- Shallow embedding of `execSQL` (src/pg_keeper.c:472-509).
Connection failure and non-success result status each log, release the
connection and return false; on success the scalar is stored when the
caller asked for it and the connection is released as well. -/
def execSQL (w : PGWorld) (wantResult : Bool) : ExecOutcome :=
  if !w.connectOk then
    { ret := false, stored := none, finishCount := 1 }
  else if w.resStatus != PGresStatus.PGRES_TUPLES_OK &&
          w.resStatus != PGresStatus.PGRES_COMMAND_OK then
    { ret := false, stored := none, finishCount := 1 }
  else
    { ret := true
      stored := if wantResult then some w.value else none
      finishCount := 1 }

/-- Shallow embedding of `heartbeatServer` (src/pg_keeper.c:460-467):
runs `execSQL` with a NULL result pointer and forwards failure. -/
def heartbeatServer (w : PGWorld) : Bool :=
  if !(execSQL w false).ret then false else true

/-- One registry row, per the spec data model and the columns
`add_node` fills in (name, conninfo, is_master, is_sync, seqno). -/
structure Node where
  name : String
  conninfo : String
  is_master : Bool
  is_sync : Bool
  seqno : Nat
deriving DecidableEq, Repr

/-- ASCII lower-casing as done per character by `pg_strcasecmp`. -/
def pg_tolower (c : Char) : Char :=
  if 'A' ≤ c ∧ c ≤ 'Z' then Char.ofNat (c.toNat + 32) else c

/-- Equality under `pg_strcasecmp` (case-insensitive ASCII string
comparison); `pg_strcasecmp a b == 0` in the C source. -/
def pg_strcasecmp_eq (a b : String) : Bool :=
  a.data.map pg_tolower == b.data.map pg_tolower

/-- Modelled from the spec: `getAllRepNodes` (defined outside src/)
performs a full-scan read of the registry; `add_node` uses only the
returned row count `num` ("If no tuple exists, this node will be
inserted as a master"). -/
def getAllRepNodes (reg : List Node) : Nat :=
  reg.length

/-- The master flag `add_node` computes: `is_master = (num == 0)`
(src/pg_keeper.c:114), true exactly when the registry has zero rows. -/
def computeIsMaster (reg : List Node) : Bool :=
  getAllRepNodes reg == 0

/-- The sync flag `add_node` computes (src/pg_keeper.c:116-129): false
for a master; otherwise true when the node name matches one member of
the NUL-delimited `RepConfig->member_names` list under
`pg_strcasecmp`.  The NUL-delimited list is modelled as a `List
String` of its tokens. -/
def computeIsSync (is_master : Bool) (members : List String) (name : String) : Bool :=
  if is_master then false
  else members.any (fun m => pg_strcasecmp_eq m name)

/-- Modelled from the spec: `addNewNode` (defined outside src/) inserts
the row with the given flags and a freshly allocated sequence number. -/
def addNewNode (reg : List Node) (name conninfo : String)
    (is_master is_sync : Bool) : List Node :=
  reg ++ [{ name := name, conninfo := conninfo, is_master := is_master,
            is_sync := is_sync,
            seqno := (reg.foldl (fun m n => max m n.seqno) 0) + 1 }]

/-- Modelled from the spec: how the reconciler rewrites one registry
row, recomputing `is_sync` from the live synchronous-standby
member-name list; it never changes `is_master`, and a master is never
marked `is_sync`. -/
def reconcileNode (members : List String) (n : Node) : Node :=
  { n with is_sync := !n.is_master && members.any (fun m => pg_strcasecmp_eq m n.name) }

/-- Modelled from the spec: `updateManageTableAccordingToSSNames`
(defined outside src/) is the synchronous-membership reconciler,
applied to every registry row within one transaction. -/
def updateManageTableAccordingToSSNames (members : List String)
    (reg : List Node) : List Node :=
  reg.map (reconcileNode members)

/-- Observable outcome of one registry-mutation entry point: the SQL
boolean it returns, the registry afterwards, whether the reconciler
ran, and the signals sent to the supervisor pid. -/
structure MutationOutcome where
  ret : Bool
  reg : List Node
  reconciled : Bool
  signals : List Signal
deriving DecidableEq, Repr

/-- Shallow embedding of `add_node` (src/pg_keeper.c:81-148).  The
network is an oracle `net` giving the `PGWorld` that `heartbeatServer`
sees for each conninfo.  On an unreachable conninfo it warns and
returns false before touching the registry; otherwise it computes the
flags, inserts, reconciles, signals the keeper and returns true. -/
def add_node (net : String → PGWorld) (members : List String)
    (reg : List Node) (node_name conninfo : String) : MutationOutcome :=
  if !heartbeatServer (net conninfo) then
    { ret := false, reg := reg, reconciled := false, signals := [] }
  else
    let is_master := computeIsMaster reg
    let is_sync := computeIsSync is_master members node_name
    let reg1 := addNewNode reg node_name conninfo is_master is_sync
    let reg2 := updateManageTableAccordingToSSNames members reg1
    { ret := true, reg := reg2, reconciled := true, signals := [Signal.SIGUSR1] }

/-- One (name, conninfo) argument pair for an `add_node` call. -/
structure AddInput where
  name : String
  conninfo : String
deriving DecidableEq, Repr

/-- Registry produced by a sequence of serialized `add_node` calls
starting from the empty registry. -/
def runAddNodes (net : String → PGWorld) (members : List String)
    (inputs : List AddInput) : List Node :=
  inputs.foldl (fun reg inp => (add_node net members reg inp.name inp.conninfo).reg) []

/-- Modelled from the spec: `deleteNodeByName` (defined outside src/)
deletes the rows matching the name and returns false when no row
matched. -/
def deleteNodeByName (name : String) (reg : List Node) : Bool × List Node :=
  (reg.any (fun n => n.name == name), reg.filter (fun n => !(n.name == name)))

/-- Modelled from the spec: `deleteNodeBySeqno` (defined outside src/)
deletes the rows matching the sequence number and returns false when no
row matched. -/
def deleteNodeBySeqno (seq : Nat) (reg : List Node) : Bool × List Node :=
  (reg.any (fun n => n.seqno == seq), reg.filter (fun n => !(n.seqno == seq)))

/-- Shallow embedding of `del_node` (src/pg_keeper.c:153-174): delete
by name, reconcile, then signal SIGUSR1 to the keeper pid
unconditionally, and return the delete result. -/
def del_node (members : List String) (reg : List Node) (name : String) : MutationOutcome :=
  let r := deleteNodeByName name reg
  let reg2 := updateManageTableAccordingToSSNames members r.2
  { ret := r.1, reg := reg2, reconciled := true, signals := [Signal.SIGUSR1] }

/-- Shallow embedding of `del_node_by_seqno` (src/pg_keeper.c:179-200):
delete by seqno, reconcile, then signal SIGUSR1 unconditionally. -/
def del_node_by_seqno (members : List String) (reg : List Node) (seq : Nat) : MutationOutcome :=
  let r := deleteNodeBySeqno seq reg
  let reg2 := updateManageTableAccordingToSSNames members r.2
  { ret := r.1, reg := reg2, reconciled := true, signals := [Signal.SIGUSR1] }

/-- Shallow embedding of `indirect_kill` (src/pg_keeper.c:219-236).
`pid` is the supervisor pid read from the shared cell.  The result is
`Except`: `ok (kills, ret)` lists the delivered (pid, signal) pairs and
the SQL return value; `error` models `ereport(ERROR, ...)`, which
reports to the caller and delivers nothing.  Both recognition branches
of the source test the string "SIGUSR1". -/
def indirect_kill (pid : Int) (signal : String) :
    Except String (List (Int × Signal) × Bool) :=
  if pg_strcasecmp_eq signal "SIGUSR1" then
    Except.ok ([(pid, Signal.SIGUSR1)], true)
  else if pg_strcasecmp_eq signal "SIGUSR1" then
    Except.ok ([(pid, Signal.SIGUSR1)], true)
  else
    Except.error ("Invalid signal " ++ signal)

/-- Signals actually delivered by an `indirect_kill` outcome (an
`ereport(ERROR)` path delivers none). -/
def deliveredSignals (r : Except String (List (Int × Signal) × Bool)) :
    List (Int × Signal) :=
  match r with
  | Except.ok p => p.1
  | Except.error _ => []

/-- The master-mode phase of `KeeperMain` (src/pg_keeper.c:417-422):
run the master routine once and return its result, recording the entry
status.  `masterRet` abstracts the value `KeeperMainMaster()` returns. -/
def masterPhase (masterRet : Bool) : List KeeperStatus × Bool :=
  ([KeeperStatus.KEEPER_MASTER_READY], masterRet)

/-- Shallow embedding of the dispatch of `KeeperMain`
(src/pg_keeper.c:416-450).  `masterRet` and `standbyRet` abstract the
return values of `KeeperMainMaster()` and `KeeperMainStandby()` (whose
bodies live outside src/).  `ok (trace, code)` records the statuses at
each pass through the `exec` label and the value handed to
`proc_exit`; a truthy standby result sets `current_status` to
`KEEPER_MASTER_READY` and re-enters via `goto exec`; any other status
is `ereport(ERROR, "invalid keeper mode")`, modelled as `error`, a
fatal exit with failure status before any loop body runs. -/
def keeperExec (masterRet standbyRet : Bool) (status : KeeperStatus) :
    Except String (List KeeperStatus × Bool) :=
  match status with
  | KeeperStatus.KEEPER_MASTER_READY =>
      Except.ok (masterPhase masterRet)
  | KeeperStatus.KEEPER_STANDBY_READY =>
      if standbyRet then
        let p := masterPhase masterRet
        Except.ok (KeeperStatus.KEEPER_STANDBY_READY :: p.1, p.2)
      else
        Except.ok ([KeeperStatus.KEEPER_STANDBY_READY], standbyRet)
  | _ => Except.error "invalid keeper mode"

/-- Modelled from the spec: the per-tick state of the standby run loop
of the Failover State Machine (`KeeperMainStandby`, defined outside
src/): consecutive-failure counter, current substate, and whether the
promotion procedure has fired. -/
structure StandbyState where
  retry_count : Nat
  substate : KeeperStatus
  promoted : Bool
deriving DecidableEq, Repr

/-- Standby-loop state at process start: zero retries, substate
`STANDBY_READY`, not promoted. -/
def initialStandbyState : StandbyState :=
  { retry_count := 0, substate := KeeperStatus.KEEPER_STANDBY_READY, promoted := false }

/-- Modelled from the spec: one heartbeat tick of the standby run loop
(`KeeperMainStandby`, defined outside src/).  Reachable primary resets
`retry_count` to 0 with substate `STANDBY_CONNECTED`; unreachable
increments it, and once `retry_count >= keepalives_count` the substate
becomes `STANDBY_ALONE` and the promotion procedure fires. -/
def standbyStep (keepalives_count : Nat) (s : StandbyState) (reachable : Bool) :
    StandbyState :=
  if reachable then
    { s with retry_count := 0, substate := KeeperStatus.KEEPER_STANDBY_CONNECTED }
  else
    let rc := s.retry_count + 1
    if keepalives_count ≤ rc then
      { retry_count := rc, substate := KeeperStatus.KEEPER_STANDBY_ALONE,
        promoted := true }
    else
      { s with retry_count := rc, substate := KeeperStatus.KEEPER_STANDBY_CONNECTED }

/-- Modelled from the spec: the standby run loop driven by a list of
heartbeat outcomes (true = primary reachable); the loop stops once
promotion has fired. -/
def standbyRun (keepalives_count : Nat) (s : StandbyState) : List Bool → StandbyState
  | [] => s
  | r :: rs =>
      if s.promoted then s
      else standbyRun keepalives_count (standbyStep keepalives_count s r) rs

/-- Number of registry rows carrying the master flag. -/
def masterCount (reg : List Node) : Nat :=
  (reg.filter (fun n => n.is_master)).length

/-- Invariant of the serialized `add_node` history: only the row at the
head of the registry (the first one inserted) may carry the master
flag, and it does whenever the registry is non-empty. -/
def MasterAtHeadOnly : List Node → Prop
  | [] => True
  | h :: t => h.is_master = true ∧ ∀ n ∈ t, n.is_master = false

/-- A libpq world in which the connection attempt fails. -/
def deadWorld : PGWorld :=
  { connectOk := false, resStatus := PGresStatus.PGRES_FATAL_ERROR, value := false }

/-- A libpq world in which the heartbeat query succeeds and yields true. -/
def liveWorld : PGWorld :=
  { connectOk := true, resStatus := PGresStatus.PGRES_TUPLES_OK, value := true }

/-- C6: the heartbeat verify operation returns Unreachable exactly when
the connection cannot be established or the executed liveness query
yields a non-success result status; on success the requested scalar is
stored; and on every exit path the connection is released exactly
once. -/
theorem execSQL_classification_and_release (w : PGWorld) (wantResult : Bool) :
    ((execSQL w wantResult).ret = false ↔
      (w.connectOk = false ∨
        (w.resStatus ≠ PGresStatus.PGRES_TUPLES_OK ∧
         w.resStatus ≠ PGresStatus.PGRES_COMMAND_OK)))
    ∧ (execSQL w wantResult).finishCount = 1
    ∧ ((execSQL w wantResult).ret = true →
        (execSQL w wantResult).stored = (if wantResult then some w.value else none))
    ∧ heartbeatServer w = (execSQL w false).ret := by
  obtain ⟨c, st, v⟩ := w
  cases c <;> cases st <;> cases v <;> cases wantResult <;> decide

/-- Witness for C6 at a concrete world: a successful query with a
requested scalar stores the value. -/
theorem execSQL_classification_and_release_witness :
    (execSQL liveWorld true).stored = (if true then some liveWorld.value else none) :=
  (execSQL_classification_and_release liveWorld true).2.2.1 rfl

/-- C7: `indirect_kill` delivers SIGUSR1 to the supervisor pid from the
shared cell and returns true whenever the signal name is recognized
(matches "SIGUSR1" case-insensitively), and reports an error, with no
signal delivered, for every unrecognized name. -/
theorem indirect_kill_recognized_or_error (pid : Int) (s : String) :
    (pg_strcasecmp_eq s "SIGUSR1" = true →
      indirect_kill pid s = Except.ok ([(pid, Signal.SIGUSR1)], true))
    ∧ (pg_strcasecmp_eq s "SIGUSR1" = false →
      indirect_kill pid s = Except.error ("Invalid signal " ++ s)) := by
  constructor <;> intro h <;> simp [indirect_kill, h]

/-- Witness for C7 at concrete names: a case-insensitive match is
accepted, SIGTERM is rejected with a reported error. -/
theorem indirect_kill_recognized_or_error_witness :
    indirect_kill 42 "sigusr1" = Except.ok ([((42 : Int), Signal.SIGUSR1)], true)
    ∧ indirect_kill 42 "SIGTERM" = Except.error ("Invalid signal " ++ "SIGTERM") :=
  ⟨(indirect_kill_recognized_or_error 42 "sigusr1").1 (by decide),
   (indirect_kill_recognized_or_error 42 "SIGTERM").2 (by decide)⟩

/-- C9: both recognition branches of `indirect_kill` test the string
"SIGUSR1", so every signal it ever delivers is SIGUSR1, for every
input. -/
theorem indirect_kill_only_SIGUSR1 (pid : Int) (s : String) (d : Int × Signal)
    (h : d ∈ deliveredSignals (indirect_kill pid s)) : d.2 = Signal.SIGUSR1 := by
  by_cases hc : pg_strcasecmp_eq s "SIGUSR1" = true
  · simp [indirect_kill, deliveredSignals, hc] at h
    simp [h]
  · simp [indirect_kill, deliveredSignals, hc] at h

/-- Witness for C9 at a concrete accepted call. -/
theorem indirect_kill_only_SIGUSR1_witness :
    ((7 : Int), Signal.SIGUSR1).2 = Signal.SIGUSR1 :=
  indirect_kill_only_SIGUSR1 7 "SigUsr1" (7, Signal.SIGUSR1) (by decide)

/-- C10: `del_node` and `del_node_by_seqno` send the SIGUSR1
cache-invalidation signal unconditionally after the delete attempt and
reconciliation, in particular also when they return false because no
row matched. -/
theorem del_node_signals_unconditional (members : List String) (reg : List Node)
    (name : String) (seq : Nat) :
    (del_node members reg name).signals = [Signal.SIGUSR1]
    ∧ (del_node_by_seqno members reg seq).signals = [Signal.SIGUSR1]
    ∧ (reg.all (fun n => !(n.name == name)) = true →
        (del_node members reg name).ret = false
        ∧ (del_node members reg name).signals = [Signal.SIGUSR1]) := by
  refine ⟨rfl, rfl, fun h => ⟨?_, rfl⟩⟩
  show (deleteNodeByName name reg).1 = false
  rw [List.all_eq_true] at h
  simp only [deleteNodeByName]
  rw [List.any_eq_false]
  intro n hn
  have := h n hn
  simp at this
  simp [this]

/-- Witness for C10: deleting from an empty registry returns false yet
still signals SIGUSR1. -/
theorem del_node_signals_unconditional_witness :
    (del_node [] [] "gone").ret = false
    ∧ (del_node [] [] "gone").signals = [Signal.SIGUSR1] :=
  (del_node_signals_unconditional [] [] "gone" 0).2.2 (by decide)

/-- C5: when the standby run loop reports success (promotion
performed), `KeeperMain` switches the status to `KEEPER_MASTER_READY`
and runs the master loop in the same invocation, without exiting in
between; the process exits only once a loop returns without triggering
that fall-through. -/
theorem keeper_standby_fallthrough (masterRet : Bool) :
    keeperExec masterRet true KeeperStatus.KEEPER_STANDBY_READY =
      Except.ok ([KeeperStatus.KEEPER_STANDBY_READY,
                  KeeperStatus.KEEPER_MASTER_READY], masterRet)
    ∧ keeperExec masterRet false KeeperStatus.KEEPER_STANDBY_READY =
      Except.ok ([KeeperStatus.KEEPER_STANDBY_READY], false) :=
  ⟨rfl, rfl⟩

/-- C8: a status that is neither `KEEPER_MASTER_READY` nor
`KEEPER_STANDBY_READY` at the main dispatch is a fatal error: the
process exits with failure status immediately, with no loop work
recorded. -/
theorem keeper_invalid_mode_fatal (masterRet standbyRet : Bool) (status : KeeperStatus)
    (h1 : status ≠ KeeperStatus.KEEPER_MASTER_READY)
    (h2 : status ≠ KeeperStatus.KEEPER_STANDBY_READY) :
    keeperExec masterRet standbyRet status = Except.error "invalid keeper mode" := by
  cases status <;> first
    | exact absurd rfl h1
    | exact absurd rfl h2
    | rfl

/-- Witness for C8 at a concrete invalid dispatch status. -/
theorem keeper_invalid_mode_fatal_witness :
    keeperExec true true KeeperStatus.KEEPER_STANDBY_ALONE =
      Except.error "invalid keeper mode" :=
  keeper_invalid_mode_fatal true true KeeperStatus.KEEPER_STANDBY_ALONE
    (by decide) (by decide)

/-- C3: when the heartbeat check of the conninfo fails, `add_node`
returns false and performs no insert, no reconciliation and no
supervisor notification: the registry is unchanged. -/
theorem add_node_unreachable_no_effect (net : String → PGWorld) (members : List String)
    (reg : List Node) (name conninfo : String)
    (h : heartbeatServer (net conninfo) = false) :
    add_node net members reg name conninfo =
      { ret := false, reg := reg, reconciled := false, signals := [] } := by
  simp [add_node, h]

/-- Witness for C3 at a concrete unreachable world. -/
theorem add_node_unreachable_no_effect_witness :
    add_node (fun _ => deadWorld) ["n2"] [] "n1" "addr1" =
      { ret := false, reg := [], reconciled := false, signals := [] } :=
  add_node_unreachable_no_effect (fun _ => deadWorld) ["n2"] [] "n1" "addr1" (by decide)

/-- Registry update performed by `add_node` on the reachable path. -/
theorem add_node_reg_of_reachable (net : String → PGWorld) (members : List String)
    (reg : List Node) (nm ci : String) (hb : heartbeatServer (net ci) = true) :
    (add_node net members reg nm ci).reg =
      updateManageTableAccordingToSSNames members
        (addNewNode reg nm ci (computeIsMaster reg)
          (computeIsSync (computeIsMaster reg) members nm)) := by
  simp [add_node, hb]

/-- The reconciler never changes the master flag of a row. -/
theorem reconcileNode_is_master (members : List String) (n : Node) :
    (reconcileNode members n).is_master = n.is_master := rfl

/-- C4: a row inserted by `add_node` has `is_sync = true` exactly when
it is not inserted as master and its name matches, case-insensitively,
some member of the live NUL-delimited synchronous-standby member list;
a row inserted as master is never `is_sync`. -/
theorem add_node_is_sync_iff (net : String → PGWorld) (members : List String)
    (reg : List Node) (name conninfo : String)
    (h : heartbeatServer (net conninfo) = true) :
    ∃ n : Node, ((add_node net members reg name conninfo).reg).getLast? = some n
      ∧ (n.is_sync = true ↔
          (n.is_master = false ∧ ∃ m ∈ members, pg_strcasecmp_eq m name = true))
      ∧ (n.is_master = true → n.is_sync = false) := by
  rw [add_node_reg_of_reachable net members reg name conninfo h]
  simp only [updateManageTableAccordingToSSNames, addNewNode, List.map_append,
    List.map_cons, List.map_nil]
  refine ⟨_, List.getLast?_concat _, ?_, ?_⟩
  · cases hm : computeIsMaster reg <;>
      simp [reconcileNode, hm, List.any_eq_true]
  · intro hm
    cases hb : computeIsMaster reg
    · rw [reconcileNode_is_master] at hm
      simp [hb] at hm
    · simp [reconcileNode, hb]

/-- Witness for C4: a standby whose name matches a sync member only up
to ASCII case is inserted with the sync flag. -/
theorem add_node_is_sync_iff_witness :
    ∃ n : Node, ((add_node (fun _ => liveWorld) ["nodeB"]
        [{ name := "n1", conninfo := "a1", is_master := true,
           is_sync := false, seqno := 1 }] "NODEB" "a2").reg).getLast? = some n
      ∧ (n.is_sync = true ↔
          (n.is_master = false ∧ ∃ m ∈ ["nodeB"], pg_strcasecmp_eq m "NODEB" = true))
      ∧ (n.is_master = true → n.is_sync = false) :=
  add_node_is_sync_iff (fun _ => liveWorld) ["nodeB"]
    [{ name := "n1", conninfo := "a1", is_master := true,
       is_sync := false, seqno := 1 }] "NODEB" "a2" (by decide)

/-- One serialized `add_node` call preserves the master-at-head-only
invariant of the registry. -/
theorem MasterAtHeadOnly_add_node (net : String → PGWorld) (members : List String)
    (reg : List Node) (nm ci : String) (hinv : MasterAtHeadOnly reg) :
    MasterAtHeadOnly ((add_node net members reg nm ci).reg) := by
  by_cases hb : heartbeatServer (net ci) = true
  · rw [add_node_reg_of_reachable net members reg nm ci hb]
    cases reg with
    | nil =>
        refine ⟨?_, ?_⟩
        · simp [reconcileNode, computeIsMaster, getAllRepNodes]
        · intro n hn
          simp [updateManageTableAccordingToSSNames, addNewNode] at hn
    | cons h t =>
        obtain ⟨h1, h2⟩ := hinv
        simp only [updateManageTableAccordingToSSNames, addNewNode,
          List.cons_append, List.map_cons]
        refine ⟨by simp [reconcileNode, h1], ?_⟩
        intro n hn
        rw [List.mem_map] at hn
        obtain ⟨m, hm, rfl⟩ := hn
        rw [List.mem_append] at hm
        cases hm with
        | inl hmt => simp [reconcileNode, h2 m hmt]
        | inr hmx =>
            rw [List.mem_singleton] at hmx
            subst hmx
            simp [reconcileNode, computeIsMaster, getAllRepNodes]
  · have heq : (add_node net members reg nm ci).reg = reg := by
      simp only [Bool.not_eq_true] at hb
      simp [add_node, hb]
    rw [heq]
    exact hinv

/-- Any sequence of serialized `add_node` calls preserves the
master-at-head-only invariant. -/
theorem MasterAtHeadOnly_foldl (net : String → PGWorld) (members : List String) :
    ∀ (inputs : List AddInput) (reg : List Node), MasterAtHeadOnly reg →
      MasterAtHeadOnly (inputs.foldl
        (fun r inp => (add_node net members r inp.name inp.conninfo).reg) reg) := by
  intro inputs
  induction inputs with
  | nil => intro reg h; exact h
  | cons i is ih =>
      intro reg h
      exact ih _ (MasterAtHeadOnly_add_node net members reg i.name i.conninfo h)

/-- A registry satisfying the master-at-head-only invariant has at most
one master row. -/
theorem masterCount_le_one (reg : List Node) (h : MasterAtHeadOnly reg) :
    masterCount reg ≤ 1 := by
  cases reg with
  | nil => simp [masterCount]
  | cons hd t =>
      obtain ⟨h1, h2⟩ := h
      have ht : t.filter (fun n => n.is_master) = [] := by
        rw [List.filter_eq_nil_iff]
        intro n hn
        simp [h2 n hn]
      simp [masterCount, List.filter_cons, h1, ht]

/-- C2: under serialized `add_node` calls from an empty registry, at
most one resulting row has the master flag, that row is the first
successfully inserted one (the head of the append-ordered registry),
and the computed master flag is true exactly when the registry has
zero rows at the time of the call. -/
theorem addNode_unique_master (net : String → PGWorld) (members : List String)
    (inputs : List AddInput) :
    masterCount (runAddNodes net members inputs) ≤ 1
    ∧ (∀ h t, runAddNodes net members inputs = h :: t →
        h.is_master = true ∧ ∀ n ∈ t, n.is_master = false)
    ∧ (∀ reg : List Node, computeIsMaster reg = true ↔ reg = []) := by
  have hinv : MasterAtHeadOnly (runAddNodes net members inputs) :=
    MasterAtHeadOnly_foldl net members inputs [] trivial
  refine ⟨masterCount_le_one _ hinv, ?_, ?_⟩
  · intro h t ht
    rw [ht] at hinv
    exact hinv
  · intro reg
    cases reg <;> simp [computeIsMaster, getAllRepNodes]

/-- Witness for C2 on a concrete two-call history: the first inserted
node carries the master flag and the second does not. -/
theorem addNode_unique_master_witness :
    ({ name := "n1", conninfo := "a1", is_master := true,
       is_sync := false, seqno := 1 } : Node).is_master = true
    ∧ ∀ n ∈ [({ name := "n2", conninfo := "a2", is_master := false,
                is_sync := true, seqno := 2 } : Node)], n.is_master = false :=
  (addNode_unique_master (fun _ => liveWorld) ["n2"]
      [{ name := "n1", conninfo := "a1" }, { name := "n2", conninfo := "a2" }]).2.1
    _ _ (by decide)

/-- Once promotion has fired, the standby loop does nothing further. -/
theorem standbyRun_of_promoted (N : Nat) (s : StandbyState) (l : List Bool)
    (h : s.promoted = true) : standbyRun N s l = s := by
  cases l with
  | nil => rfl
  | cons r rs => simp [standbyRun, h]

/-- The standby loop splits over concatenated heartbeat histories. -/
theorem standbyRun_append (N : Nat) (s : StandbyState) (l1 l2 : List Bool) :
    standbyRun N s (l1 ++ l2) = standbyRun N (standbyRun N s l1) l2 := by
  induction l1 generalizing s with
  | nil => rfl
  | cons r rs ih =>
      by_cases h : s.promoted = true
      · simp [standbyRun, h, standbyRun_of_promoted N s l2 h]
      · simp only [Bool.not_eq_true] at h
        simp [standbyRun, h, ih]

/-- Unfolding a single tick of the standby loop. -/
theorem standbyRun_one (N : Nat) (s : StandbyState) (b : Bool) :
    standbyRun N s [b] =
      if s.promoted = true then s else standbyStep N s b := by
  by_cases h : s.promoted = true <;> simp [standbyRun, h]

/-- Running `k` consecutive failed heartbeats below the threshold only
accumulates the retry counter and never promotes. -/
theorem standbyRun_replicate_false (N k : Nat) : ∀ s : StandbyState,
    s.promoted = false → s.retry_count + k < N →
    (standbyRun N s (List.replicate k false)).promoted = false
    ∧ (standbyRun N s (List.replicate k false)).retry_count = s.retry_count + k := by
  induction k with
  | zero => intro s hp _; exact ⟨hp, rfl⟩
  | succ k ih =>
      rintro ⟨rc, sub, p⟩ hp h
      cases p with
      | true => exact absurd hp (by simp)
      | false =>
          have h' : rc + (k + 1) < N := h
          have hnle : ¬ N ≤ rc + 1 := by omega
          have hstep : standbyStep N ⟨rc, sub, false⟩ false =
              ⟨rc + 1, KeeperStatus.KEEPER_STANDBY_CONNECTED, false⟩ := by
            simp [standbyStep, hnle]
          have hrun : standbyRun N ⟨rc, sub, false⟩ (false :: List.replicate k false)
              = standbyRun N ⟨rc + 1, KeeperStatus.KEEPER_STANDBY_CONNECTED, false⟩
                  (List.replicate k false) := by
            rw [show standbyRun N ⟨rc, sub, false⟩ (false :: List.replicate k false)
                = standbyRun N (standbyStep N ⟨rc, sub, false⟩ false)
                    (List.replicate k false) by simp [standbyRun], hstep]
          have key := ih ⟨rc + 1, KeeperStatus.KEEPER_STANDBY_CONNECTED, false⟩ rfl
            (show rc + 1 + k < N by omega)
          rw [List.replicate_succ, hrun]
          refine ⟨key.1, ?_⟩
          have k2 : (standbyRun N ⟨rc + 1, KeeperStatus.KEEPER_STANDBY_CONNECTED, false⟩
              (List.replicate k false)).retry_count = rc + 1 + k := key.2
          show _ = rc + (k + 1)
          omega

/-- C1: with retry threshold `N`, a standby observing `N` consecutive
unreachable heartbeats promotes exactly on the `N`-th failure and on no
earlier tick; `N - 1` consecutive failures followed by one reachable
heartbeat reset the retry counter to 0 with no promotion. -/
theorem standby_promotion_threshold (N : Nat) (hN : 1 ≤ N) :
    (standbyRun N initialStandbyState (List.replicate N false)).promoted = true
    ∧ (∀ k, k < N →
        (standbyRun N initialStandbyState (List.replicate k false)).promoted = false)
    ∧ (standbyRun N initialStandbyState
        (List.replicate (N - 1) false ++ [true])).retry_count = 0
    ∧ (standbyRun N initialStandbyState
        (List.replicate (N - 1) false ++ [true])).promoted = false := by
  obtain ⟨hp1, hr1⟩ := standbyRun_replicate_false N (N - 1) initialStandbyState rfl
    (show initialStandbyState.retry_count + (N - 1) < N by
      show 0 + (N - 1) < N; omega)
  refine ⟨?_, ?_, ?_, ?_⟩
  · have e : List.replicate N false = List.replicate (N - 1) false ++ [false] := by
      rw [← List.replicate_succ']
      congr 1
      omega
    rw [e, standbyRun_append, standbyRun_one]
    have hle : N ≤ (standbyRun N initialStandbyState
        (List.replicate (N - 1) false)).retry_count + 1 := by
      rw [hr1]
      show N ≤ 0 + (N - 1) + 1
      omega
    simp [hp1, standbyStep, hle]
  · intro k hk
    exact (standbyRun_replicate_false N k initialStandbyState rfl
      (show initialStandbyState.retry_count + k < N by show 0 + k < N; omega)).1
  · rw [standbyRun_append, standbyRun_one]
    simp [hp1, standbyStep]
  · rw [standbyRun_append, standbyRun_one]
    simp [hp1, standbyStep]

/-- Witness for C1 at threshold 3: the third consecutive failure
promotes, two failures do not, and two failures followed by a success
reset the counter without promotion. -/
theorem standby_promotion_threshold_witness :
    (standbyRun 3 initialStandbyState (List.replicate 3 false)).promoted = true
    ∧ (standbyRun 3 initialStandbyState (List.replicate 2 false)).promoted = false
    ∧ (standbyRun 3 initialStandbyState
        (List.replicate (3 - 1) false ++ [true])).retry_count = 0
    ∧ (standbyRun 3 initialStandbyState
        (List.replicate (3 - 1) false ++ [true])).promoted = false :=
  ⟨(standby_promotion_threshold 3 (by decide)).1,
   (standby_promotion_threshold 3 (by decide)).2.1 2 (by decide),
   (standby_promotion_threshold 3 (by decide)).2.2.1,
   (standby_promotion_threshold 3 (by decide)).2.2.2⟩
